import Mathlib

/-!
Verification of the block-world simulation (`src/src/main.py`, `src/player.py`).

The world grid is a Python dict mapping integer coordinate triples to Block
instances; we embed it as an insertion-ordered association list.  Continuous
quantities (Panda3D floats) are embedded as rationals.  Python's `round`
(banker's rounding, ties to even) is embedded as `pyRound`.
-/

set_option maxRecDepth 4000

section BlockWorld

attribute [local semireducible] Rat.add Rat.mul Rat.inv Rat.sub

/-- Integer grid coordinate, as the Python tuple `(round(x), round(y), round(z))`. -/
abbrev Coord : Type := ℤ × ℤ × ℤ

/-- Continuous 3D point (Panda3D `Point3` / `Vec3`). -/
abbrev Pt3 : Type := ℚ × ℚ × ℚ

/-- World grid `self.blocks`: a Python dict from coordinate tuple to the block's
type tag, embedded as an insertion-ordered association list with unique keys. -/
abbrev Grid : Type := List (Coord × String)

/-- Python's built-in `round` on a real value: nearest integer, ties to even
(banker's rounding). -/
def pyRound (q : ℚ) : ℤ :=
  if q - ⌊q⌋ < 1/2 then ⌊q⌋
  else if 1/2 < q - ⌊q⌋ then ⌊q⌋ + 1
  else if ⌊q⌋ % 2 = 0 then ⌊q⌋ else ⌊q⌋ + 1

/-- Rounding of a continuous position to its grid cell, as in
`(round(position.x), round(position.y), round(position.z))` in `add_block`. -/
def roundCoord (p : Pt3) : Coord :=
  (pyRound p.1, pyRound p.2.1, pyRound p.2.2)

/-- Dict lookup `self.blocks.get(c)` / `c in self.blocks`. -/
def gridGet : Grid → Coord → Option String
  | [], _ => none
  | e :: g, c => if e.1 = c then some e.2 else gridGet g c

/-- Keys of the grid dict. -/
def gridKeys (g : Grid) : List Coord := g.map Prod.fst

/-- `MyApp.add_block(position, block_type)` (src/src/main.py lines 202-212):
round the position to the grid cell; if the cell is free, create the block,
store it and return it; otherwise return `None` and leave the dict untouched.
The returned block instance is embedded as its (coordinate, type) pair. -/
def add_block (g : Grid) (position : Pt3) (block_type : String) :
    Grid × Option (Coord × String) :=
  let c := roundCoord position
  if (gridGet g c).isSome then (g, none)
  else (g ++ [(c, block_type)], some (c, block_type))

/-- `MyApp.remove_block(block_instance)` (src/src/main.py lines 214-220):
if the argument is `None` do nothing; otherwise round the instance's stored
(integer) coordinates and delete that key from the dict if present.  In
every path the function returns normally (Python `None`); no exception is
raised. -/
def remove_block (g : Grid) (block_instance : Option (Coord × String)) : Grid :=
  match block_instance with
  | none => g
  | some (c, _) =>
    if (gridGet g c).isSome then g.eraseP (fun e => decide (e.1 = c)) else g

-- Sanity checks on the embedding (small concrete inputs).
example : pyRound (1/2) = 0 := by decide
example : pyRound (3/2) = 2 := by decide
example : pyRound (7/10) = 1 := by decide
example : pyRound (-(1/2)) = 0 := by decide
example : (add_block [] (0, 0, 0) "stone").1 = [((0, 0, 0), "stone")] := by decide
example : add_block [((0, 0, 0), "stone")] (0, 0, 0) "grass"
    = ([((0, 0, 0), "stone")], none) := by decide

/-!
## Persistence (`save_world` / `load_world`, src/src/main.py lines 78-159)

A record of the JSON save file is a dict with fields `x`, `y`, `z`, `type`
(a field embedded as `none` is a missing key, raising `KeyError` on access),
or a non-dict JSON value.
-/

/-- One entry of the JSON save-file list. -/
inductive JRec : Type where
  | notDict : JRec
  | mk (x y z : Option ℚ) (ty : Option String) : JRec
deriving DecidableEq

/-- Field extraction in the load loop: `Point3(d["x"], d["y"], d["z"])` and
`d["type"]`; yields `none` exactly when a `KeyError` (or the non-dict check)
makes the loop skip the record. -/
def fullFields : JRec → Option (Pt3 × String)
  | JRec.notDict => none
  | JRec.mk (some x) (some y) (some z) (some t) => some ((x, y, z), t)
  | JRec.mk _ _ _ _ => none

/-- One iteration of the record loop in `MyApp.load_world`
(src/src/main.py lines 133-144), threading the grid and the warnings
printed so far: a non-dict entry or a missing field is skipped with a
warning; otherwise `add_block` is called (which silently returns `None`
on a duplicate coordinate). -/
def processRec (acc : Grid × List String) (r : JRec) : Grid × List String :=
  match r with
  | JRec.notDict =>
    (acc.1, acc.2 ++ ["Warning: Skipping invalid block data entry"])
  | JRec.mk (some x) (some y) (some z) (some t) =>
    ((add_block acc.1 (x, y, z) t).1, acc.2)
  | JRec.mk _ _ _ _ =>
    (acc.1, acc.2 ++ ["Warning: Skipping block with missing data field"])

/-- The repopulation loop of `MyApp.load_world` run on an already-cleared
grid: fold `processRec` over the parsed record list, returning the final
grid and the warnings printed. -/
def load_records (recs : List JRec) : Grid × List String :=
  recs.foldl processRec ([], [])

/-- Outcome of `os.path.exists` + `open` + `json.load` on the save file:
the file is unreadable or not valid JSON (`IOError` / `JSONDecodeError`),
valid JSON that is not a list, or a parsed list of records. -/
inductive SaveFile : Type where
  | invalid : SaveFile
  | notList : SaveFile
  | ok (recs : List JRec) : SaveFile
deriving DecidableEq

/-- `MyApp.load_world(filename)` (src/src/main.py lines 108-159) acting on
the in-memory grid; `file = none` means `os.path.exists` is false.  The
source clears the whole grid (`self.blocks.clear()`) before opening and
parsing the file, so a file that exists but fails to read or parse, or is
not a list, leaves the grid empty while `False` is returned. -/
def load_world (file : Option SaveFile) (g : Grid) : Grid × Bool :=
  match file with
  | none => (g, false)
  | some SaveFile.invalid => ([], false)
  | some SaveFile.notList => ([], false)
  | some (SaveFile.ok recs) => ((load_records recs).1, true)

/-- The record that `MyApp.save_world` (src/src/main.py lines 78-106) writes
for one grid entry: `{"x": px, "y": py, "z": pz, "type": t}`. -/
def recOf (e : Coord × String) : JRec :=
  JRec.mk (some (e.1.1 : ℚ)) (some (e.1.2.1 : ℚ)) (some (e.1.2.2 : ℚ)) (some e.2)

/-- The list of records `MyApp.save_world` exports: one per dict entry, in
dict (insertion) order. -/
def save_world (g : Grid) : List JRec := g.map recOf

/-!
## Player kinematics (`Player.update_player`, src/player.py lines 91-185)

Only the vertical dynamics (`z`, `vertical_velocity`, `on_ground`,
`is_jumping`) are embedded: the horizontal-movement half of the task writes
only `x`/`y` from the heading and never touches these four fields.  The
constants come from `Player.__init__`: `jump_force = 7.0`,
`gravity = -19.6`, `model_height_offset = 0.3`; the ground ray starts
`0.25` below the player centre and shoots down.  The result of the
collision traversal (the queue `ground_handler`) is passed in as `hit`:
the surface z of the closest entry, or `none` when the queue is empty. -/
structure PState : Type where
  z : ℚ
  vv : ℚ
  on_ground : Bool
  is_jumping : Bool
deriving DecidableEq

/-- The grounded test of `update_player`: a closest ray hit exists and its
surface z is within tolerance below the feet,
`hit_pos.getZ() > current_pos.getZ() - self.model_height_offset - 0.1`. -/
def groundDetect (hit : Option ℚ) (s : PState) : Bool :=
  match hit with
  | none => false
  | some hz => decide (hz > s.z - 3/10 - 1/10)

/-- One tick of `Player.update_player`, projected to the vertical state.
Stages in source order: ground detection (snap `z` to `hit + 0.3`, zero
velocity, clear `is_jumping`), gravity integration when airborne, the
unconditional `z += vv * dt`, then the jump branch
(`jump` key ∧ `on_ground` ∧ ¬`is_jumping` sets `vv = 7`, `is_jumping`,
and clears `on_ground`).  The second component records whether the jump
branch fired this tick. -/
def update_player (dt : ℚ) (jumpKey : Bool) (hit : Option ℚ) (s : PState) :
    PState × Bool :=
  let det := groundDetect hit s
  let z1 : ℚ := if det then hit.getD 0 + 3/10 else s.z
  let vv1 : ℚ := if det then 0 else s.vv
  let ij1 : Bool := if det then false else s.is_jumping
  let vv2 : ℚ := if det then vv1 else vv1 + (-(98/5)) * dt
  let z2 : ℚ := z1 + vv2 * dt
  let jumped : Bool := jumpKey && det && !ij1
  if jumped then ({ z := z2, vv := 7, on_ground := false, is_jumping := true }, true)
  else ({ z := z2, vv := vv2, on_ground := det, is_jumping := ij1 }, false)

/-- Modelled from the spec: the Collision Resolver (ray-box intersection,
spec section 4.2) lives in the external engine, not under `src/`.  This is
its specialisation to the player's downward ground ray over the single
unit block centred at the origin (top face z = 1/2): the ray origin sits
at `z - 0.25`; a downward ray starting on or above the top face strikes it
at z = 1/2, otherwise the queue is empty. -/
def rayQuery (z : ℚ) : Option ℚ :=
  if (1 : ℚ)/2 ≤ z - 1/4 then some (1/2) else none

/-- One no-input tick over the single-block world: the collision traversal
fills the queue from the player's current position, then `update_player`
runs with every key released. -/
def simStep (dt : ℚ) (s : PState) : PState :=
  (update_player dt false (rayQuery s.z) s).1

/-- The spec's example scenario: player starts at z = 2 at rest in the air
(`Player.__init__`), simulated at `dt = 1/60` with no input. -/
def sim (n : ℕ) : PState :=
  (simStep (1/60))^[n] { z := 2, vv := 0, on_ground := false, is_jumping := false }

/-- The rest state the spec expects on top of the unit block:
feet on z = 1/2, centre at `0.5 + 0.3`. -/
def restState : PState :=
  { z := 4/5, vv := 0, on_ground := true, is_jumping := false }

-- Sanity checks of the kinematics embedding.
example : groundDetect (some (1/2)) { z := 2, vv := 0, on_ground := false, is_jumping := false } = false := by decide
example : groundDetect (some (1/2)) { z := 17/20, vv := -3, on_ground := false, is_jumping := false } = true := by decide
example : simStep (1/60) restState = restState := by decide
example : sim 3 = { z := 2 - 49/9000 * 6, vv := -(49/150) * 3, on_ground := false, is_jumping := false } := by decide

/-!
## Picker (`get_block_hit` / `handle_right_click`, src/src/main.py lines 222-283)
-/

/-- `MyApp.get_block_hit` (src/src/main.py lines 222-249).  Inputs: whether
`mouseWatcherNode.hasMouse()` holds and the collision queue produced by the
traverser (one sorted-distance value per struck solid).  With no mouse or an
empty queue the source returns the explicit no-hit triple `(None, None, None)`.
With a non-empty queue it takes the closest entry and then evaluates
`isinstance(current_np.node(), PandaNode)` - both inside the ancestry-walk
loop and in the unconditional check after it - but `PandaNode` is never
imported in `main.py`, so every such call raises
`NameError: name 'PandaNode' is not defined` before any value is returned. -/
def get_block_hit (hasMouse : Bool) (entries : List ℚ) :
    Except String (Option (Coord × Pt3 × Pt3)) :=
  if hasMouse then
    if entries.isEmpty then Except.ok none
    else Except.error "NameError: name PandaNode is not defined"
  else Except.ok none

/-- The six exact axis-aligned face normals a unit-cube surface hit reports. -/
def unitNormals : List Pt3 :=
  [(1, 0, 0), (-1, 0, 0), (0, 1, 0), (0, -1, 0), (0, 0, 1), (0, 0, -1)]

/-- The placement logic of `MyApp.handle_right_click` (src/src/main.py lines
257-283), parameterised over the pick result `(block_hit, hit_pos,
hit_normal)` (all three are `None` together in the source's no-hit case).
Target cell: `round(block_center + normal)` per component; placing into the
player's body or head cell returns early; otherwise `add_block` is called
with the currently selected type (and itself declines occupied cells). -/
def handle_right_click (g : Grid) (hit : Option (Coord × Pt3 × Pt3))
    (playerPos : Pt3) (cur : String) : Grid :=
  match hit with
  | none => g
  | some (bc, _hpos, n) =>
    let final : Coord :=
      (pyRound ((bc.1 : ℚ) + n.1), pyRound ((bc.2.1 : ℚ) + n.2.1),
        pyRound ((bc.2.2 : ℚ) + n.2.2))
    let ppr : Coord := (pyRound playerPos.1, pyRound playerPos.2.1, pyRound playerPos.2.2)
    let phr : Coord := (pyRound playerPos.1, pyRound playerPos.2.1, pyRound (playerPos.2.2 + 1))
    if final = ppr ∨ final = phr then g
    else (add_block g ((final.1 : ℚ), (final.2.1 : ℚ), (final.2.2 : ℚ)) cur).1

/-!
## Operation sequences over the grid
-/

/-- A grid-mutating operation of the application: a (world-generation,
load-loop or placement) `add_block` call, a `remove_block` call, or a
`load_world` call. -/
inductive WorldOp : Type where
  | add (pos : Pt3) (block_type : String) : WorldOp
  | remove (block_instance : Option (Coord × String)) : WorldOp
  | load (file : Option SaveFile) : WorldOp

/-- Apply one operation to the grid. -/
def applyOp (g : Grid) : WorldOp → Grid
  | WorldOp.add p t => (add_block g p t).1
  | WorldOp.remove i => remove_block g i
  | WorldOp.load f => (load_world f g).1

/-- Run a sequence of operations starting from the empty world of
`MyApp.__init__` (`self.blocks = {}`). -/
def runOps (ops : List WorldOp) : Grid := ops.foldl applyOp []

/-- Strict first-biased choice on optional values (used to state lookup
through an insertion-ordered dict). -/
def optOr (a b : Option String) : Option String :=
  match a with
  | some v => some v
  | none => b

/-- The type of the first well-formed record mapping to cell `c`, in list
order; `none` when no valid record targets `c`. -/
def firstValidAt : List JRec → Coord → Option String
  | [], _ => none
  | r :: rs, c =>
    match fullFields r with
    | some (p, t) => if roundCoord p = c then some t else firstValidAt rs c
    | none => firstValidAt rs c

/-!
## Lemmas about rounding
-/

lemma pyRound_intCast (k : ℤ) : pyRound (k : ℚ) = k := by
  norm_num [pyRound, Int.floor_intCast]

lemma roundCoord_intCast (c : Coord) :
    roundCoord ((c.1 : ℚ), (c.2.1 : ℚ), (c.2.2 : ℚ)) = c := by
  simp [roundCoord, pyRound_intCast]

lemma pyRound_nearest (q : ℚ) (n : ℤ) : |q - (pyRound q : ℚ)| ≤ |q - (n : ℚ)| := by
  have hf : (⌊q⌋ : ℚ) ≤ q := Int.floor_le q
  have hf1 : q < ⌊q⌋ + 1 := Int.lt_floor_add_one q
  have hb1 : q - (n : ℚ) ≤ |q - (n : ℚ)| := le_abs_self _
  have hb2 : (n : ℚ) - q ≤ |q - (n : ℚ)| := by
    rw [abs_sub_comm]; exact le_abs_self _
  have hn : (n : ℚ) ≤ (⌊q⌋ : ℚ) ∨ ((⌊q⌋ : ℚ) + 1) ≤ (n : ℚ) := by
    rcases le_or_lt n ⌊q⌋ with h | h
    · left; exact_mod_cast h
    · right; exact_mod_cast h
  unfold pyRound
  split_ifs with h1 h2 h3
  · rw [abs_of_nonneg (by linarith : (0 : ℚ) ≤ q - (⌊q⌋ : ℚ))]
    rcases hn with hn | hn <;> linarith
  · rw [show (((⌊q⌋ + 1 : ℤ) : ℚ)) = (⌊q⌋ : ℚ) + 1 by push_cast; ring,
      abs_of_nonpos (by linarith : q - ((⌊q⌋ : ℚ) + 1) ≤ 0)]
    rcases hn with hn | hn <;> linarith
  · have htie : q - (⌊q⌋ : ℚ) = 1/2 := le_antisymm (not_lt.1 h2) (not_lt.1 h1)
    rw [abs_of_nonneg (by linarith : (0 : ℚ) ≤ q - (⌊q⌋ : ℚ))]
    rcases hn with hn | hn <;> linarith
  · have htie : q - (⌊q⌋ : ℚ) = 1/2 := le_antisymm (not_lt.1 h2) (not_lt.1 h1)
    rw [show (((⌊q⌋ + 1 : ℤ) : ℚ)) = (⌊q⌋ : ℚ) + 1 by push_cast; ring,
      abs_of_nonpos (by linarith : q - ((⌊q⌋ : ℚ) + 1) ≤ 0)]
    rcases hn with hn | hn <;> linarith

lemma pyRound_cast_add_int (k m : ℤ) : pyRound ((k : ℚ) + (m : ℚ)) = k + m := by
  rw [show ((k : ℚ) + (m : ℚ)) = ((k + m : ℤ) : ℚ) by push_cast; ring, pyRound_intCast]

/-!
## Lemmas about the grid dict
-/

lemma gridGet_nil (c : Coord) : gridGet [] c = none := rfl

lemma gridGet_eq_none_iff (g : Grid) (c : Coord) :
    gridGet g c = none ↔ c ∉ gridKeys g := by
  induction g with
  | nil => simp [gridGet, gridKeys]
  | cons e g ih =>
    simp only [gridGet, gridKeys, List.map_cons, List.mem_cons, not_or]
    by_cases h : e.1 = c
    · simp [h]
    · rw [if_neg h]
      constructor
      · intro hnone
        exact ⟨Ne.symm h, ih.1 hnone⟩
      · rintro ⟨-, hmem⟩
        exact ih.2 hmem

lemma gridGet_append_single (g : Grid) (d : Coord) (t : String) (c : Coord) :
    gridGet (g ++ [(d, t)]) c
      = optOr (gridGet g c) (if c = d then some t else none) := by
  induction g with
  | nil =>
    by_cases h : c = d
    · simp [gridGet, optOr, h]
    · simp [gridGet, optOr, h, Ne.symm h]
  | cons e g ih =>
    by_cases h : e.1 = c
    · simp [gridGet, h, optOr]
    · simpa [gridGet, h, optOr] using ih

lemma add_block_occupied (g : Grid) (pos : Pt3) (t : String)
    (h : (gridGet g (roundCoord pos)).isSome = true) :
    add_block g pos t = (g, none) := by
  simp [add_block, h]

lemma add_block_fresh (g : Grid) (pos : Pt3) (t : String)
    (h : gridGet g (roundCoord pos) = none) :
    add_block g pos t
      = (g ++ [(roundCoord pos, t)], some (roundCoord pos, t)) := by
  simp [add_block, h]

lemma gridGet_add_block (g : Grid) (p : Pt3) (t : String) (c : Coord) :
    gridGet (add_block g p t).1 c
      = if roundCoord p = c ∧ gridGet g (roundCoord p) = none
        then some t else gridGet g c := by
  by_cases hocc : gridGet g (roundCoord p) = none
  · rw [add_block_fresh g p t hocc]
    simp only [gridGet_append_single]
    by_cases hc : c = roundCoord p
    · subst hc
      simp [hocc, optOr]
    · rw [if_neg hc, if_neg (fun hand => (Ne.symm hc) hand.1)]
      cases hg : gridGet g c <;> simp [optOr]
  · have hs : (gridGet g (roundCoord p)).isSome = true := by
      cases hg : gridGet g (roundCoord p) <;> simp_all
    rw [add_block_occupied g p t hs]
    simp [hocc]

lemma gridKeys_append (g : Grid) (e : Coord × String) :
    gridKeys (g ++ [e]) = gridKeys g ++ [e.1] := by
  simp [gridKeys]

lemma keysNodup_add_block (g : Grid) (p : Pt3) (t : String)
    (h : (gridKeys g).Nodup) : (gridKeys (add_block g p t).1).Nodup := by
  by_cases hocc : gridGet g (roundCoord p) = none
  · have hmem : roundCoord p ∉ gridKeys g := (gridGet_eq_none_iff g _).1 hocc
    have h1 := congrArg Prod.fst (add_block_fresh g p t hocc)
    simp only at h1
    rw [h1, gridKeys_append]
    refine List.Nodup.append h (List.nodup_singleton _) ?_
    intro a ha hb
    simp only [List.mem_singleton] at hb
    exact hmem (hb ▸ ha)
  · have hs : (gridGet g (roundCoord p)).isSome = true := by
      cases hg : gridGet g (roundCoord p) <;> simp_all
    have h1 := congrArg Prod.fst (add_block_occupied g p t hs)
    simp only at h1
    rw [h1]
    exact h

lemma remove_block_sublist (g : Grid) (inst : Option (Coord × String)) :
    (remove_block g inst).Sublist g := by
  cases inst with
  | none => exact List.Sublist.refl g
  | some e =>
    rcases e with ⟨c, t⟩
    simp only [remove_block]
    split_ifs
    · exact List.eraseP_sublist g
    · exact List.Sublist.refl g

lemma keysNodup_remove_block (g : Grid) (inst : Option (Coord × String))
    (h : (gridKeys g).Nodup) : (gridKeys (remove_block g inst)).Nodup :=
  List.Nodup.sublist (List.Sublist.map Prod.fst (remove_block_sublist g inst)) h

lemma keysNodup_foldl_processRec :
    ∀ (recs : List JRec) (acc : Grid × List String),
      (gridKeys acc.1).Nodup → (gridKeys ((recs.foldl processRec acc).1)).Nodup := by
  intro recs
  induction recs with
  | nil => intro acc h; exact h
  | cons r rs ih =>
    intro acc h
    simp only [List.foldl_cons]
    apply ih
    cases r with
    | notDict => exact h
    | mk x y z t =>
      rcases x with _ | x <;> rcases y with _ | y <;> rcases z with _ | z <;>
        rcases t with _ | t <;>
        first
        | exact h
        | exact keysNodup_add_block _ _ _ h

lemma keysNodup_load_records (recs : List JRec) :
    (gridKeys (load_records recs).1).Nodup :=
  keysNodup_foldl_processRec recs ([], []) (by simp [gridKeys])

lemma keysNodup_load_world (f : Option SaveFile) (g : Grid)
    (h : (gridKeys g).Nodup) : (gridKeys (load_world f g).1).Nodup := by
  cases f with
  | none => exact h
  | some f' =>
    cases f' with
    | invalid => simp [load_world, gridKeys]
    | notList => simp [load_world, gridKeys]
    | ok recs => exact keysNodup_load_records recs

lemma keysNodup_applyOp (g : Grid) (op : WorldOp)
    (h : (gridKeys g).Nodup) : (gridKeys (applyOp g op)).Nodup := by
  cases op with
  | add p t => exact keysNodup_add_block g p t h
  | remove i => exact keysNodup_remove_block g i h
  | load f => exact keysNodup_load_world f g h

lemma keysNodup_foldl_applyOp :
    ∀ (ops : List WorldOp) (g : Grid),
      (gridKeys g).Nodup → (gridKeys (ops.foldl applyOp g)).Nodup := by
  intro ops
  induction ops with
  | nil => intro g h; exact h
  | cons op ops ih =>
    intro g h
    simp only [List.foldl_cons]
    exact ih _ (keysNodup_applyOp g op h)

/-!
## Lemmas about the load loop
-/

lemma processRec_full (acc : Grid × List String) (x y z : ℚ) (t : String) :
    processRec acc (JRec.mk (some x) (some y) (some z) (some t))
      = ((add_block acc.1 (x, y, z) t).1, acc.2) := rfl

lemma load_foldl_get :
    ∀ (recs : List JRec) (g : Grid) (ws : List String) (c : Coord),
      gridGet ((recs.foldl processRec (g, ws)).1) c
        = optOr (gridGet g c) (firstValidAt recs c) := by
  intro recs
  induction recs with
  | nil =>
    intro g ws c
    cases hg : gridGet g c <;> simp [firstValidAt, optOr, hg]
  | cons r rs ih =>
    intro g ws c
    simp only [List.foldl_cons]
    cases r with
    | notDict =>
      simp only [processRec, firstValidAt, fullFields]
      exact ih g _ c
    | mk x y z t =>
      rcases x with _ | x <;> rcases y with _ | y <;> rcases z with _ | z <;>
        rcases t with _ | t <;>
        try
          simp only [processRec, firstValidAt, fullFields]
          exact ih g _ c
      rw [processRec_full, ih _ _ c, gridGet_add_block]
      simp only [firstValidAt, fullFields]
      by_cases h1 : roundCoord (x, y, z) = c
      · by_cases h2 : gridGet g (roundCoord (x, y, z)) = none
        · rw [if_pos ⟨h1, h2⟩, if_pos h1]
          have hgc : gridGet g c = none := h1 ▸ h2
          simp [optOr, hgc]
        · rw [if_neg (fun hand => h2 hand.2), if_pos h1]
          have hgc : gridGet g c ≠ none := h1 ▸ h2
          cases hg : gridGet g c with
          | none => exact absurd hg hgc
          | some v => simp [optOr]
      · rw [if_neg (fun hand => h1 hand.1), if_neg h1]

/-- The number of records the load loop skips (non-dict entries and records
with a missing field). -/
def invalidCount : List JRec → ℕ
  | [] => 0
  | r :: rs => (if (fullFields r).isNone then 1 else 0) + invalidCount rs

lemma load_foldl_warns_len :
    ∀ (recs : List JRec) (g : Grid) (ws : List String),
      ((recs.foldl processRec (g, ws)).2).length
        = ws.length + invalidCount recs := by
  intro recs
  induction recs with
  | nil => intro g ws; simp [invalidCount]
  | cons r rs ih =>
    intro g ws
    simp only [List.foldl_cons]
    cases r with
    | notDict =>
      simp only [processRec]
      rw [ih]
      simp [invalidCount, fullFields]
      omega
    | mk x y z t =>
      rcases x with _ | x <;> rcases y with _ | y <;> rcases z with _ | z <;>
        rcases t with _ | t <;>
        simp only [processRec] <;>
        rw [ih] <;> simp [invalidCount, fullFields] <;> omega

lemma load_foldl_fresh :
    ∀ (l : List (Coord × String)) (g : Grid) (ws : List String),
      (∀ c ∈ l.map Prod.fst, gridGet g c = none) → (l.map Prod.fst).Nodup →
      (((l.map recOf).foldl processRec (g, ws)).1) = g ++ l := by
  intro l
  induction l with
  | nil => intro g ws _ _; simp
  | cons e l ih =>
    intro g ws hfresh hnodup
    simp only [List.map_cons, List.foldl_cons]
    have hre : processRec (g, ws) (recOf e)
        = ((add_block g ((e.1.1 : ℚ), (e.1.2.1 : ℚ), (e.1.2.2 : ℚ)) e.2).1, ws) := rfl
    rw [hre]
    have hrc : roundCoord ((e.1.1 : ℚ), (e.1.2.1 : ℚ), (e.1.2.2 : ℚ)) = e.1 :=
      roundCoord_intCast e.1
    have hg : gridGet g (roundCoord ((e.1.1 : ℚ), (e.1.2.1 : ℚ), (e.1.2.2 : ℚ))) = none := by
      rw [hrc]
      exact hfresh e.1 (by simp)
    have h1 := congrArg Prod.fst (add_block_fresh g ((e.1.1 : ℚ), (e.1.2.1 : ℚ), (e.1.2.2 : ℚ)) e.2 hg)
    simp only at h1
    rw [h1, hrc]
    have hnd : (l.map Prod.fst).Nodup := hnodup.of_cons
    have hhd : e.1 ∉ l.map Prod.fst := by
      simp only [List.map_cons, List.nodup_cons] at hnodup
      exact hnodup.1
    rw [ih (g ++ [(e.1, e.2)]) ws ?_ hnd]
    · simp
    · intro c hc
      rw [gridGet_append_single]
      have h2 : gridGet g c = none := hfresh c (by simp [hc])
      have h3 : ¬ c = e.1 := fun hce => hhd (hce ▸ hc)
      simp [h2, optOr, if_neg h3]

/-- A run of consecutive `update_player` ticks with a fixed jump-key state,
fed by the per-tick collision-queue results; the second component is true
when the jump branch fired on any tick of the run. -/
def runTicks (dt : ℚ) (jumpKey : Bool) (hits : List (Option ℚ)) (s : PState) :
    PState × Bool :=
  match hits with
  | [] => (s, false)
  | h :: hs =>
    let r := update_player dt jumpKey h s
    let rest := runTicks dt jumpKey hs r.1
    (rest.1, r.2 || rest.2)

/-!
## Claim theorems
-/

/-- C1: the claim says a corrupt or unreadable save file leaves the
in-memory grid untouched on the failed load.  The source clears the grid
before opening the file, so the failed load of a present-but-corrupt (or
not-a-list) file returns `False` with the grid emptied: evaluating the
embedded `load_world` at a one-block grid shows the block is destroyed. -/
theorem load_world_corrupt_file_clears_grid :
    load_world (some SaveFile.invalid) [((0, 0, 0), "stone")] = ([], false)
    ∧ load_world (some SaveFile.notList) [((0, 0, 0), "stone")] = ([], false)
    ∧ ¬ (load_world (some SaveFile.invalid) [((0, 0, 0), "stone")]).1
        = [((0, 0, 0), "stone")] :=
  ⟨rfl, rfl, by decide⟩

/-- C9: when the save file does not exist, `load_world` returns `False`
before the clearing step, so the grid is exactly what it was: for every
grid, `load_world none g = (g, false)`. -/
theorem load_missing_file_grid_untouched :
    ∀ g : Grid, load_world none g = (g, false) :=
  fun _ => rfl

/-- C6: the claim says the pick operation returns the nearest struck block
and an explicit no-hit result when nothing is struck.  The no-hit halves
hold (`(None, None, None)` on an empty queue or no mouse), but on any
non-empty queue `get_block_hit` evaluates `isinstance(_, PandaNode)` with
`PandaNode` unimported in `main.py` and raises `NameError` instead of
returning the nearest block. -/
theorem pick_raises_on_hit_returns_none_on_miss :
    get_block_hit true [1, 2, 3]
        = Except.error "NameError: name PandaNode is not defined"
    ∧ get_block_hit true [] = Except.ok none
    ∧ get_block_hit false [1] = Except.ok none :=
  ⟨rfl, rfl, rfl⟩

/-- C4: inserting at an occupied cell fails with result `None` and the grid
(the block at the cell, its type, and every other entry) is unchanged;
removing with an instance whose cell is empty leaves the grid unchanged.
Both are total functions of the embedding: every code path returns a value,
no exception is raised. -/
theorem insert_occupied_remove_empty_nonfatal :
    (∀ (g : Grid) (pos : Pt3) (t : String),
        (gridGet g (roundCoord pos)).isSome = true → add_block g pos t = (g, none))
    ∧ (∀ (g : Grid) (c : Coord) (t : String),
        gridGet g c = none → remove_block g (some (c, t)) = g) := by
  constructor
  · intro g pos t h
    exact add_block_occupied g pos t h
  · intro g c t h
    simp [remove_block, h]

/-- Witness for C4 at a concrete one-block grid. -/
theorem insert_occupied_remove_empty_nonfatal_witness :
    (gridGet [((0, 0, 0), "stone")] (roundCoord (0, 0, 0))).isSome = true
    ∧ add_block [((0, 0, 0), "stone")] (0, 0, 0) "grass"
        = ([((0, 0, 0), "stone")], none)
    ∧ gridGet [((0, 0, 0), "stone")] (1, 0, 0) = none
    ∧ remove_block [((0, 0, 0), "stone")] (some ((1, 0, 0), "grass"))
        = [((0, 0, 0), "stone")] :=
  ⟨by decide,
    insert_occupied_remove_empty_nonfatal.1 _ _ _ (by decide),
    by decide,
    insert_occupied_remove_empty_nonfatal.2 _ _ "grass" (by decide)⟩

/-- C10: every key the grid dict ever holds is an integer triple - `add_block`
rounds each component of the continuous position with Python's `round`
(which lands on a nearest integer) before inserting - and after any sequence
of add / remove / load operations from the initial empty world the keys are
pairwise distinct: at most one block per cell. -/
theorem grid_cells_integer_and_unique :
    (∀ ops : List WorldOp, (gridKeys (runOps ops)).Nodup)
    ∧ (∀ (g : Grid) (p : Pt3) (t : String),
        (add_block g p t).1 = g ∨ (add_block g p t).1 = g ++ [(roundCoord p, t)])
    ∧ (∀ (q : ℚ) (n : ℤ), |q - (pyRound q : ℚ)| ≤ |q - (n : ℚ)|) := by
  refine ⟨?_, ?_, pyRound_nearest⟩
  · intro ops
    exact keysNodup_foldl_applyOp ops [] (by simp [gridKeys])
  · intro g p t
    by_cases hocc : gridGet g (roundCoord p) = none
    · right
      exact congrArg Prod.fst (add_block_fresh g p t hocc)
    · left
      have hs : (gridGet g (roundCoord p)).isSome = true := by
        cases hg : gridGet g (roundCoord p) <;> simp_all
      exact congrArg Prod.fst (add_block_occupied g p t hs)

/-- C2: on every tick the jump branch sets `vertical_velocity = jump_force`
exactly when the jump key is held and the ground check detected support
this tick (detection also clears `is_jumping`, so the branch's
`not is_jumping` guard holds on every landing tick); in particular it never
fires on a tick whose ground check found no support, so holding jump while
airborne cannot re-apply jump velocity - across a whole airborne run with
the key held, no tick fires. -/
theorem jump_velocity_only_on_ground_detection :
    (∀ (dt : ℚ) (jumpKey : Bool) (hit : Option ℚ) (s : PState),
        (update_player dt jumpKey hit s).2 = (jumpKey && groundDetect hit s))
    ∧ (∀ (dt : ℚ) (s : PState) (n : ℕ),
        (runTicks dt true (List.replicate n none) s).2 = false) := by
  have hstep : ∀ (dt : ℚ) (jumpKey : Bool) (hit : Option ℚ) (s : PState),
      (update_player dt jumpKey hit s).2 = (jumpKey && groundDetect hit s) := by
    intro dt jumpKey hit s
    simp only [update_player]
    cases hdet : groundDetect hit s <;> cases jumpKey <;> simp
  refine ⟨hstep, ?_⟩
  intro dt s n
  induction n generalizing s with
  | zero => rfl
  | succ n ih =>
    simp only [List.replicate, runTicks, hstep, groundDetect, Bool.and_false,
      Bool.false_or]
    exact ih _

/-- C3: on any tick whose ground check detects the single block's top
surface (z = 1/2) within tolerance and with no input held, the player ends
the tick at rest: `on_ground = true`, `vertical_velocity = 0`,
`z = 1/2 + 0.3 = 0.8`; the rest state is a fixed point of further no-input
ticks; and in the concrete fall from z = 2 at dt = 1/60 the ground check
first detects the surface within tolerance on the tick after `sim 20`, and
one tick later (`sim 21`, and still at `sim 25`) the player is at rest. -/
theorem ground_snap_reaches_rest :
    (∀ (dt : ℚ) (s : PState),
        groundDetect (some (1/2)) s = true →
        (update_player dt false (some (1/2)) s).1 = restState)
    ∧ (∀ dt : ℚ, (update_player dt false (rayQuery restState.z) restState).1 = restState)
    ∧ (∀ k : ℕ, k < 20 → groundDetect (rayQuery (sim k).z) (sim k) = false)
    ∧ groundDetect (rayQuery (sim 20).z) (sim 20) = true
    ∧ sim 21 = restState
    ∧ sim 25 = restState := by
  refine ⟨?_, ?_, by decide, by decide, by decide, by decide⟩
  · intro dt s h
    simp only [update_player, h]
    norm_num [restState]
  · intro dt
    have h1 : rayQuery restState.z = some (1/2) := by decide
    have h2 : groundDetect (some (1/2)) restState = true := by decide
    rw [h1]
    simp only [update_player, h2]
    norm_num [restState]

/-- Witness for C3's detection-tick hypothesis at a concrete falling state. -/
theorem ground_snap_reaches_rest_witness :
    groundDetect (some (1/2))
        { z := 17/20, vv := -1, on_ground := false, is_jumping := false } = true
    ∧ (update_player (1/60) false (some (1/2))
        { z := 17/20, vv := -1, on_ground := false, is_jumping := false }).1
      = restState :=
  ⟨by decide,
    ground_snap_reaches_rest.1 (1/60)
      { z := 17/20, vv := -1, on_ground := false, is_jumping := false } (by decide)⟩

lemma pyRound_one : pyRound 1 = 1 := by decide

lemma pyRound_zero : pyRound 0 = 0 := by decide

lemma pyRound_neg_one : pyRound (-1) = -1 := by decide

lemma pyRound_cast_add_one (k : ℤ) : pyRound ((k : ℚ) + 1) = k + 1 := by
  have h := pyRound_cast_add_int k 1
  push_cast at h
  exact h

lemma pyRound_cast_add_neg_one (k : ℤ) : pyRound ((k : ℚ) + -1) = k + -1 := by
  have h := pyRound_cast_add_int k (-1)
  push_cast at h
  exact h

lemma place_case (g : Grid) (target : Coord) (p : Pt3) (t : String) :
    (if target = (pyRound p.1, pyRound p.2.1, pyRound p.2.2)
        ∨ target = (pyRound p.1, pyRound p.2.1, pyRound (p.2.2 + 1)) then g
     else (add_block g ((target.1 : ℚ), (target.2.1 : ℚ), (target.2.2 : ℚ)) t).1)
    = (if target = (pyRound p.1, pyRound p.2.1, pyRound p.2.2)
          ∨ target = (pyRound p.1, pyRound p.2.1, pyRound (p.2.2 + 1))
          ∨ (gridGet g target).isSome = true then g
       else g ++ [(target, t)]) := by
  by_cases h1 : target = (pyRound p.1, pyRound p.2.1, pyRound p.2.2)
      ∨ target = (pyRound p.1, pyRound p.2.1, pyRound (p.2.2 + 1))
  · rw [if_pos h1, if_pos (h1.elim Or.inl (fun b => Or.inr (Or.inl b)))]
  · rw [if_neg h1]
    have hrc : roundCoord ((target.1 : ℚ), (target.2.1 : ℚ), (target.2.2 : ℚ)) = target :=
      roundCoord_intCast target
    by_cases h2 : gridGet g target = none
    · have hfr := congrArg Prod.fst
        (add_block_fresh g ((target.1 : ℚ), (target.2.1 : ℚ), (target.2.2 : ℚ)) t
          (by rw [hrc]; exact h2))
      simp only at hfr
      rw [hfr, hrc]
      have hcond : ¬ (target = (pyRound p.1, pyRound p.2.1, pyRound p.2.2)
          ∨ target = (pyRound p.1, pyRound p.2.1, pyRound (p.2.2 + 1))
          ∨ (gridGet g target).isSome = true) := by
        rintro (ha | hb | hc)
        · exact h1 (Or.inl ha)
        · exact h1 (Or.inr hb)
        · rw [h2] at hc
          exact absurd hc (by simp)
      rw [if_neg hcond]
    · have hs : (gridGet g target).isSome = true := by
        cases hg : gridGet g target <;> simp_all
      have hoc := congrArg Prod.fst
        (add_block_occupied g ((target.1 : ℚ), (target.2.1 : ℚ), (target.2.2 : ℚ)) t
          (by rw [hrc]; exact hs))
      simp only at hoc
      rw [hoc, if_pos (Or.inr (Or.inr hs))]

/-- C5: placing on a picked face computes the target cell as the struck
block's coordinate plus the rounded unit face normal, and mutates nothing
when that cell is occupied, or is the player's (rounded) body cell, or the
head cell one unit up; otherwise the currently selected type is inserted
at the target. -/
theorem place_on_face_target_and_rejection :
    ∀ (g : Grid) (bc : Coord) (hpos n p : Pt3) (t : String),
      n ∈ unitNormals →
      handle_right_click g (some (bc, hpos, n)) p t
        = (if (bc.1 + pyRound n.1, bc.2.1 + pyRound n.2.1, bc.2.2 + pyRound n.2.2)
                = (pyRound p.1, pyRound p.2.1, pyRound p.2.2)
              ∨ (bc.1 + pyRound n.1, bc.2.1 + pyRound n.2.1, bc.2.2 + pyRound n.2.2)
                = (pyRound p.1, pyRound p.2.1, pyRound (p.2.2 + 1))
              ∨ (gridGet g (bc.1 + pyRound n.1, bc.2.1 + pyRound n.2.1,
                  bc.2.2 + pyRound n.2.2)).isSome = true
           then g
           else g ++ [((bc.1 + pyRound n.1, bc.2.1 + pyRound n.2.1,
              bc.2.2 + pyRound n.2.2), t)]) := by
  intro g bc hpos n p t hn
  simp only [unitNormals, List.mem_cons, List.mem_singleton, List.not_mem_nil,
    or_false] at hn
  rcases hn with rfl | rfl | rfl | rfl | rfl | rfl <;>
    simp only [handle_right_click, pyRound_cast_add_one, pyRound_cast_add_neg_one,
      add_zero, pyRound_intCast, pyRound_one, pyRound_zero, pyRound_neg_one] <;>
    exact place_case g _ p t

/-- Witness for C5 at a concrete grid, normal and player position. -/
theorem place_on_face_target_and_rejection_witness :
    ((0 : ℚ), (0 : ℚ), (1 : ℚ)) ∈ unitNormals
    ∧ handle_right_click [((0, 0, 0), "stone")]
        (some ((0, 0, 0), (0, 0, 1/2), (0, 0, 1))) (5, 5, 5) "grass"
      = (if ((0 : ℤ) + pyRound 0, (0 : ℤ) + pyRound 0, (0 : ℤ) + pyRound 1)
            = (pyRound 5, pyRound 5, pyRound 5)
          ∨ ((0 : ℤ) + pyRound 0, (0 : ℤ) + pyRound 0, (0 : ℤ) + pyRound 1)
            = (pyRound 5, pyRound 5, pyRound ((5 : ℚ) + 1))
          ∨ (gridGet [((0, 0, 0), "stone")]
              ((0 : ℤ) + pyRound 0, (0 : ℤ) + pyRound 0, (0 : ℤ) + pyRound 1)).isSome = true
        then [((0, 0, 0), "stone")]
        else [((0, 0, 0), "stone")]
          ++ [((((0 : ℤ) + pyRound 0, (0 : ℤ) + pyRound 0, (0 : ℤ) + pyRound 1)), "grass")]) :=
  ⟨by decide,
    place_on_face_target_and_rejection [((0, 0, 0), "stone")] (0, 0, 0)
      (0, 0, 1/2) (0, 0, 1) (5, 5, 5) "grass" (by decide)⟩

/-- C7: exporting a grid with unique keys to `{x, y, z, type}` records and
importing the records - listed in any order - into a fresh empty grid yields
exactly the original (coordinate, type) pairs: the imported grid is a
permutation of the original, and membership of pairs coincides. -/
theorem save_load_round_trip :
    ∀ (g l : List (Coord × String)), (gridKeys g).Nodup → l.Perm g →
      (l.map recOf).Perm (save_world g)
      ∧ (load_records (l.map recOf)).1.Perm g
      ∧ ∀ e : Coord × String, e ∈ (load_records (l.map recOf)).1 ↔ e ∈ g := by
  intro g l hnd hperm
  have hmap : (l.map recOf).Perm (save_world g) := hperm.map recOf
  have hkeys : (l.map Prod.fst).Perm (gridKeys g) := hperm.map Prod.fst
  have hlnd : (l.map Prod.fst).Nodup := hkeys.nodup_iff.2 hnd
  have hload : (load_records (l.map recOf)).1 = l := by
    have h := load_foldl_fresh l [] [] (fun c _ => rfl) hlnd
    simpa using h
  refine ⟨hmap, ?_, ?_⟩
  · rw [hload]; exact hperm
  · intro e
    rw [hload]
    exact hperm.mem_iff

/-- Witness for C7: a two-block grid exported and re-imported in reversed
record order. -/
theorem save_load_round_trip_witness :
    (gridKeys [((0, 0, 0), "stone"), ((1, 0, 0), "grass")]).Nodup
    ∧ ([((1, 0, 0), "grass"), ((0, 0, 0), "stone")] : List (Coord × String)).Perm
        [((0, 0, 0), "stone"), ((1, 0, 0), "grass")]
    ∧ ([((1, 0, 0), "grass"), ((0, 0, 0), "stone")].map recOf).Perm
        (save_world [((0, 0, 0), "stone"), ((1, 0, 0), "grass")])
    ∧ (load_records ([((1, 0, 0), "grass"), ((0, 0, 0), "stone")].map recOf)).1.Perm
        [((0, 0, 0), "stone"), ((1, 0, 0), "grass")]
    ∧ (((0, 0, 0), "stone")
          ∈ (load_records ([((1, 0, 0), "grass"), ((0, 0, 0), "stone")].map recOf)).1
        ↔ ((0, 0, 0), "stone")
          ∈ ([((0, 0, 0), "stone"), ((1, 0, 0), "grass")] : List (Coord × String))) := by
  have h := save_load_round_trip [((0, 0, 0), "stone"), ((1, 0, 0), "grass")]
    [((1, 0, 0), "grass"), ((0, 0, 0), "stone")] (by decide) (by decide)
  exact ⟨by decide, by decide, h.1, h.2.1, h.2.2 _⟩

/-- C8 counterexample: the claim says a record whose coordinate duplicates an
already-loaded one is skipped with a warning.  Loading two records for cell
(0,0,0) does skip the second (the grid keeps the first occurrence), but the
warning list is empty: `add_block` declines the duplicate silently and the
loop prints nothing for it. -/
theorem load_duplicate_skipped_without_warning :
    load_records [JRec.mk (some 0) (some 0) (some 0) (some "stone"),
        JRec.mk (some 0) (some 0) (some 0) (some "grass")]
      = ([((0, 0, 0), "stone")], []) := by decide

/-- C8 (amended): during a load from a parseable record list, every record
missing a required field (and every non-dict entry) is skipped with a
warning, duplicate-coordinate records are skipped silently, and the load
never aborts: the resulting grid holds, at each cell, exactly the type of
the first well-formed record for that cell, and the number of warnings
equals the number of non-dict or missing-field records. -/
theorem load_skips_invalid_and_continues :
    (∀ (recs : List JRec) (c : Coord),
        gridGet (load_records recs).1 c = firstValidAt recs c)
    ∧ (∀ recs : List JRec, ((load_records recs).2).length = invalidCount recs) := by
  constructor
  · intro recs c
    have h := load_foldl_get recs [] [] c
    rw [show optOr (gridGet [] c) (firstValidAt recs c) = firstValidAt recs c from rfl] at h
    exact h
  · intro recs
    have h := load_foldl_warns_len recs [] []
    simpa using h

end BlockWorld
